import Mathlib

/-!
Shallow embedding of the price-prediction core of `property-price-lookup`
(`src/ml/feature_engineering.py`, `src/ml/model_trainer.py`,
`src/ml/predictor.py`, `config/settings.py`).

Numeric columns are embedded as exact rationals.  Pandas float columns can
hold the IEEE special values produced by division by zero, and comparisons
with NaN are false; we model exactly that fragment with the type `PF`
(a rational together with NaN and the two infinities).  No rounding is
modelled: every arithmetic operation the verified claims touch is exact at
the inputs considered.
-/

/-- A pandas float cell: an exact rational, NaN, or a signed infinity. -/
inductive PF where
  | nan : PF
  | pinf : PF
  | ninf : PF
  | val : ℚ → PF
deriving DecidableEq

namespace PF

/-- IEEE subtraction on `PF` (the fragment used by the predictor). -/
def sub : PF → PF → PF
  | nan, _ => nan
  | _, nan => nan
  | pinf, pinf => nan
  | pinf, _ => pinf
  | ninf, ninf => nan
  | ninf, _ => ninf
  | val _, pinf => ninf
  | val _, ninf => pinf
  | val a, val b => val (a - b)

/-- IEEE division on `PF`: dividing a non-zero rational by zero gives a
signed infinity, `0 / 0` gives NaN — exactly what pandas produces at
`predictor.py` line 70-72 when `predicted_price` is zero. -/
def div : PF → PF → PF
  | nan, _ => nan
  | _, nan => nan
  | pinf, pinf => nan
  | pinf, ninf => nan
  | ninf, pinf => nan
  | ninf, ninf => nan
  | pinf, val b => if 0 ≤ b then pinf else ninf
  | ninf, val b => if 0 ≤ b then ninf else pinf
  | val _, pinf => val 0
  | val _, ninf => val 0
  | val a, val b =>
      if b = 0 then (if a = 0 then nan else if 0 < a then pinf else ninf)
      else val (a / b)

/-- IEEE multiplication on `PF` (the fragment used by the predictor). -/
def mul : PF → PF → PF
  | nan, _ => nan
  | _, nan => nan
  | pinf, pinf => pinf
  | pinf, ninf => ninf
  | ninf, pinf => ninf
  | ninf, ninf => pinf
  | pinf, val b => if b = 0 then nan else if 0 < b then pinf else ninf
  | val a, pinf => if a = 0 then nan else if 0 < a then pinf else ninf
  | ninf, val b => if b = 0 then nan else if 0 < b then ninf else pinf
  | val a, ninf => if a = 0 then nan else if 0 < a then ninf else pinf
  | val a, val b => val (a * b)

/-- IEEE `>=` as pandas evaluates it: any comparison with NaN is false.
This is the comparison run by `find_bargain_properties`
(`predictor.py` line 120-122). -/
def ge : PF → PF → Bool
  | nan, _ => false
  | _, nan => false
  | pinf, _ => true
  | ninf, ninf => true
  | ninf, _ => false
  | val _, pinf => false
  | val _, ninf => true
  | val a, val b => decide (b ≤ a)

/-- Total preorder used to model the pandas sort indexer.  NaN is placed
at the bottom so that after the descending double-reversal (see
`pandasSortDesc`) NaNs land last, matching `na_position="last"`.  Rows
reaching the sort in `find_bargain_properties` never carry NaN, since the
`>=` filter has already dropped them. -/
def le : PF → PF → Bool
  | nan, _ => true
  | _, nan => false
  | ninf, _ => true
  | _, ninf => false
  | val _, pinf => true
  | pinf, val _ => false
  | pinf, pinf => true
  | val a, val b => decide (a ≤ b)

end PF

theorem PF_le_refl (a : PF) : PF.le a a = true := by
  cases a <;> simp [PF.le]

theorem PF_le_total (a b : PF) : PF.le a b = true ∨ PF.le b a = true := by
  cases a <;> cases b <;> simp [PF.le]
  exact le_total _ _

theorem PF_le_trans {a b c : PF} (h₁ : PF.le a b = true) (h₂ : PF.le b c = true) :
    PF.le a c = true := by
  cases a <;> cases b <;> cases c <;> simp_all [PF.le]
  linarith

/-- `numpy` cast of a float to `int` (`predictions.astype(int)` at
`predictor.py` line 67): truncation toward zero. -/
def truncInt (q : ℚ) : ℤ := if 0 ≤ q then ⌊q⌋ else ⌈q⌉

/-- `pandas.Series.median()` restricted to the non-missing values the
caller passes in: sort ascending, take the middle element (odd count) or
the mean of the two middle elements (even count); `none` on an empty
series. -/
def median (xs : List ℚ) : Option ℚ :=
  let s := List.insertionSort (· ≤ ·) xs
  let n := s.length
  if n = 0 then none
  else if n % 2 = 1 then some (s.getD (n / 2) 0)
  else some ((s.getD (n / 2 - 1) 0 + s.getD (n / 2) 0) / 2)

/-- `pd.cut(station_distance, bins=[0,5,10,15,inf])` with labels
`very_close`, `close`, `medium`, `far` (`feature_engineering.py`
lines 104-109).  `pd.cut` bins are left-open right-closed, and a value
outside every bin (here `d ≤ 0`) becomes missing. -/
def stationDistanceCategory (d : ℚ) : Option String :=
  if d ≤ 0 then none
  else if d ≤ 5 then some "very_close"
  else if d ≤ 10 then some "close"
  else if d ≤ 15 then some "medium"
  else some "far"

/-- `pd.cut(building_age, bins=[0,5,10,20,30,inf])` with labels
`new`, `relatively_new`, `medium`, `old`, `very_old`
(`feature_engineering.py` lines 116-121). -/
def ageCategory (a : ℚ) : Option String :=
  if a ≤ 0 then none
  else if a ≤ 5 then some "new"
  else if a ≤ 10 then some "relatively_new"
  else if a ≤ 20 then some "medium"
  else if a ≤ 30 then some "old"
  else some "very_old"

/-- `pd.cut(floor_area, bins=[0,40,60,80,inf])` with labels
`small`, `medium`, `large`, `very_large` (`feature_engineering.py`
lines 124-129). -/
def areaCategory (a : ℚ) : Option String :=
  if a ≤ 0 then none
  else if a ≤ 40 then some "small"
  else if a ≤ 60 then some "medium"
  else if a ≤ 80 then some "large"
  else some "very_large"

/-- Value of the first maximal digit run in a character list, if any:
the embedding of `re.search(r"(\d+)", layout)` in `_extract_room_count`
(`feature_engineering.py` lines 181-189). -/
def firstNumber : List Char → Option ℕ
  | [] => none
  | c :: rest =>
      if c.isDigit then
        some ((c :: rest.takeWhile Char.isDigit).foldl
          (fun a ch => 10 * a + (ch.toNat - 48)) 0)
      else firstNumber rest

/-- `_extract_room_count`: the first integer in the layout string, `1`
when the string has no digits, and `1` when the value is not a string
(a missing layout). -/
def extractRoomCount (layout : Option String) : ℕ :=
  match layout with
  | none => 1
  | some s => (firstNumber s.data).getD 1

/-- `.astype(str)` on one cell: a missing value prints as the string
`"nan"` (`_encode_categorical_features` applies `.astype(str)` to every
column it encodes, `feature_engineering.py` lines 159-166). -/
def toStr (o : Option String) : String := o.getD "nan"

/-- `sklearn.LabelEncoder.fit`: the classes are the sorted distinct
values of the fitted column (`np.unique`). -/
def fitClasses (xs : List String) : List String :=
  List.insertionSort (· ≤ ·) xs.dedup

/-- `sklearn.LabelEncoder.transform` on one value: the index of the value
in the fitted classes, `none` when the value was never seen during the
fit (sklearn raises `ValueError` there). -/
def codeOf : List String → String → Option ℕ
  | [], _ => none
  | c :: cs, x => if c = x then some 0 else (codeOf cs x).map (· + 1)

/-- `LabelEncoder.transform` on a column: all codes, or `none` as soon as
one value is unseen. -/
def transformColumn (cls : List String) : List String → Option (List ℕ)
  | [] => some []
  | x :: xs =>
      match codeOf cls x, transformColumn cls xs with
      | some c, some cs => some (c :: cs)
      | _, _ => none

/-- The `FeatureEngineer.label_encoders` dictionary: fitted classes per
column name. -/
def EncState := List (String × List String)

/-- One iteration of the loop in `_encode_categorical_features`
(`feature_engineering.py` lines 155-166): an unfitted column is fitted
(`fit_transform`) and the encoder stored; a fitted column is re-encoded
with the stored classes (`transform`), which fails on an unseen value. -/
def encodeColumn (st : EncState) (col : String) (values : List String) :
    Except String (EncState × List ℕ) :=
  match List.lookup col st with
  | none =>
      let cls := fitClasses values
      Except.ok ((col, cls) :: st, values.map (fun x => (codeOf cls x).getD 0))
  | some cls =>
      match transformColumn cls values with
      | some codes => Except.ok (st, codes)
      | none => Except.error ("y contains previously unseen labels: " ++ col)

/-- One raw listing row, with the columns `create_features` reads:
`price` plus the seven numeric columns of `_clean_basic_features` and its
five categorical columns.  A `none` cell is a pandas NaN. -/
structure Listing where
  price : Option ℚ
  building_age : Option ℚ
  floor_area : Option ℚ
  floor_number : Option ℚ
  total_floors : Option ℚ
  station_distance : Option ℚ
  management_fee : Option ℚ
  repair_reserve_fund : Option ℚ
  prefecture : Option String
  city : Option String
  layout : Option String
  structureType : Option String
  direction : Option String
deriving DecidableEq

/-- `df[col].fillna(df[col].median())` for one numeric column
(`feature_engineering.py` line 64): every missing cell is replaced by the
median of the column's present cells; when the whole column is missing the
median is itself NaN and `fillna` changes nothing. -/
def cleanNumericColumn (col : List (Option ℚ)) : List (Option ℚ) :=
  match median (col.filterMap id) with
  | none => col
  | some m => col.map (fun o => some (o.getD m))

/-- The value the prediction path feeds the model for one numeric column:
the `create_features` cleaning (line 64) followed by `X.fillna(0)`
(`predictor.py` line 61). -/
def inferenceImputeColumn (col : List (Option ℚ)) : List ℚ :=
  (cleanNumericColumn col).map (fun o => o.getD 0)

/-- Missing-cell filler: keep a present value, else use the column
statistic (which may itself be missing). -/
def fillOpt (o : Option ℚ) (m : Option ℚ) : Option ℚ :=
  match o with
  | some v => some v
  | none => m

/-- `_clean_basic_features` (`feature_engineering.py` lines 40-79) on a
whole frame: each of the seven numeric columns is median-imputed over the
current batch, and each categorical column has missing values replaced by
the sentinel "不明". -/
def cleanListings (rows : List Listing) : List Listing :=
  let medBA := median (rows.filterMap (·.building_age))
  let medFA := median (rows.filterMap (·.floor_area))
  let medFN := median (rows.filterMap (·.floor_number))
  let medTF := median (rows.filterMap (·.total_floors))
  let medSD := median (rows.filterMap (·.station_distance))
  let medMF := median (rows.filterMap (·.management_fee))
  let medRF := median (rows.filterMap (·.repair_reserve_fund))
  rows.map (fun r =>
    { r with
      building_age := fillOpt r.building_age medBA
      floor_area := fillOpt r.floor_area medFA
      floor_number := fillOpt r.floor_number medFN
      total_floors := fillOpt r.total_floors medTF
      station_distance := fillOpt r.station_distance medSD
      management_fee := fillOpt r.management_fee medMF
      repair_reserve_fund := fillOpt r.repair_reserve_fund medRF
      prefecture := some (r.prefecture.getD "不明")
      city := some (r.city.getD "不明")
      layout := some (r.layout.getD "不明")
      structureType := some (r.structureType.getD "不明")
      direction := some (r.direction.getD "不明") })

/-- A listing together with the derived columns of
`_create_derived_features` (`feature_engineering.py` lines 81-131). -/
structure DerivedRow where
  base : Listing
  building_age_squared : Option ℚ
  mgmt_fee_per_sqm : Option ℚ
  floor_ratio : Option ℚ
  room_count : ℕ
  station_distance_category : Option String
  age_category : Option String
  area_category : Option String
deriving DecidableEq

/-- `_create_derived_features` on one row.  An arithmetic derivation of a
missing operand is itself missing (NaN propagates); `pd.cut` of a missing
value is missing. -/
def deriveFeatures (r : Listing) : DerivedRow :=
  { base := r
    building_age_squared := r.building_age.map (fun a => a ^ 2)
    mgmt_fee_per_sqm :=
      match r.management_fee, r.floor_area with
      | some mf, some fa => some (mf / (fa + 1))
      | _, _ => none
    floor_ratio :=
      match r.floor_number, r.total_floors with
      | some fn, some tf => some (fn / (tf + 1))
      | _, _ => none
    room_count := extractRoomCount r.layout
    station_distance_category := r.station_distance.bind stationDistanceCategory
    age_category := r.building_age.bind ageCategory
    area_category := r.floor_area.bind areaCategory }

/-- A fully featured row: a derived row plus the eight `*_encoded`
columns produced by `_encode_categorical_features`. -/
structure FeatRow where
  derived : DerivedRow
  prefecture_encoded : ℕ
  city_encoded : ℕ
  layout_encoded : ℕ
  structureType_encoded : ℕ
  direction_encoded : ℕ
  station_distance_category_encoded : ℕ
  age_category_encoded : ℕ
  area_category_encoded : ℕ
deriving DecidableEq

/-- The eight label-encoded columns, in the loop order of
`_encode_categorical_features`, with the `.astype(str)` stringification
applied to each cell. -/
def encodedColumnNames : List String :=
  ["prefecture", "city", "layout", "structure", "direction",
   "station_distance_category", "age_category", "area_category"]

/-- The stringified cell of one encoded column on one derived row. -/
def columnValue (r : DerivedRow) : String → String
  | "prefecture" => toStr r.base.prefecture
  | "city" => toStr r.base.city
  | "layout" => toStr r.base.layout
  | "structure" => toStr r.base.structureType
  | "direction" => toStr r.base.direction
  | "station_distance_category" => toStr r.station_distance_category
  | "age_category" => toStr r.age_category
  | _ => toStr r.area_category

/-- The fitting half of one loop iteration of
`_encode_categorical_features`: a column that has no stored encoder gets
one fitted on the current batch; a fitted column's encoder is left
untouched. -/
def fitStep (rows : List DerivedRow) (st : EncState) (col : String) : EncState :=
  match List.lookup col st with
  | some _ => st
  | none => (col, fitClasses (rows.map (fun r => columnValue r col))) :: st

/-- The encoder state after the loop of `_encode_categorical_features`
has visited all eight columns.  (An encoder, once fitted, is never
overwritten, so each column's codes in the loop are computed with exactly
the classes this final state stores for it.) -/
def fitAll (st : EncState) (rows : List DerivedRow) : EncState :=
  encodedColumnNames.foldl (fitStep rows) st

/-- Encode one derived row against a fully fitted state; `none` when some
cell's value is absent from its column's fitted classes, which is the
`ValueError` sklearn raises inside the loop. -/
def encodeRow (st : EncState) (r : DerivedRow) : Option FeatRow := do
  let pe ← (List.lookup "prefecture" st).bind (fun cls => codeOf cls (toStr r.base.prefecture))
  let ce ← (List.lookup "city" st).bind (fun cls => codeOf cls (toStr r.base.city))
  let le ← (List.lookup "layout" st).bind (fun cls => codeOf cls (toStr r.base.layout))
  let se ← (List.lookup "structure" st).bind (fun cls => codeOf cls (toStr r.base.structureType))
  let de ← (List.lookup "direction" st).bind (fun cls => codeOf cls (toStr r.base.direction))
  let sde ← (List.lookup "station_distance_category" st).bind
    (fun cls => codeOf cls (toStr r.station_distance_category))
  let ae ← (List.lookup "age_category" st).bind (fun cls => codeOf cls (toStr r.age_category))
  let are ← (List.lookup "area_category" st).bind (fun cls => codeOf cls (toStr r.area_category))
  pure { derived := r, prefecture_encoded := pe, city_encoded := ce,
         layout_encoded := le, structureType_encoded := se, direction_encoded := de,
         station_distance_category_encoded := sde, age_category_encoded := ae,
         area_category_encoded := are }

/-- `_encode_categorical_features` on a frame: fit the still-unfitted
encoders on the current batch, then produce the eight `*_encoded` columns;
error when an already-fitted encoder meets an unseen value. -/
def encodeAll (st : EncState) (rows : List DerivedRow) :
    Except String (EncState × List FeatRow) :=
  let st1 := fitAll st rows
  match rows.mapM (encodeRow st1) with
  | some frs => Except.ok (st1, frs)
  | none => Except.error "y contains previously unseen labels"

/-- `FeatureEngineer.create_features` (`feature_engineering.py`
lines 17-38): clean the basic columns, derive features, encode
categorical features.  The returned frame is a fresh object — the heap
model below (`createFeaturesHeap`) makes the `df.copy()` explicit. -/
def createFeaturesPure (st : EncState) (rows : List Listing) :
    Except String (EncState × List FeatRow) :=
  encodeAll st ((cleanListings rows).map deriveFeatures)

/-- `X.fillna(0)` at `predictor.py` line 61: the model input has every
still-missing numeric feature replaced by zero.  (The encoded columns and
`room_count` are integer-valued and never missing.) -/
def fillZero (fr : FeatRow) : FeatRow :=
  { fr with
    derived :=
      { fr.derived with
        base :=
          { fr.derived.base with
            building_age := some (fr.derived.base.building_age.getD 0)
            floor_area := some (fr.derived.base.floor_area.getD 0)
            floor_number := some (fr.derived.base.floor_number.getD 0)
            total_floors := some (fr.derived.base.total_floors.getD 0)
            station_distance := some (fr.derived.base.station_distance.getD 0)
            management_fee := some (fr.derived.base.management_fee.getD 0)
            repair_reserve_fund := some (fr.derived.base.repair_reserve_fund.getD 0) }
        building_age_squared := some (fr.derived.building_age_squared.getD 0)
        mgmt_fee_per_sqm := some (fr.derived.mgmt_fee_per_sqm.getD 0)
        floor_ratio := some (fr.derived.floor_ratio.getD 0) } }

/-- A scored row of `predict`'s output frame: the featured row plus the
`predicted_price` (integer) and `actual_price` columns
(`predictor.py` lines 67-68). -/
structure ScoredRow where
  row : FeatRow
  predicted : ℤ
  actual : Option ℚ
deriving DecidableEq

/-- Lift an `actual_price` cell into the pandas-float model. -/
def pfOfOpt (o : Option ℚ) : PF :=
  match o with
  | none => PF.nan
  | some q => PF.val q

/-- The `discount_rate` column (`predictor.py` lines 70-72):
`(predicted_price - actual_price) / predicted_price * 100`, evaluated
with pandas float semantics. -/
def discountRate (pred : ℤ) (actual : PF) : PF :=
  PF.mul (PF.div (PF.sub (PF.val pred) actual) (PF.val pred)) (PF.val 100)

/-- The discount rate of a scored row. -/
def ScoredRow.discount (r : ScoredRow) : PF :=
  discountRate r.predicted (pfOfOpt r.actual)

/-- `PricePredictor.predict` (`predictor.py` lines 37-74): run
`create_features`, select the feature columns, zero-fill what is still
missing, apply the regression model (an opaque learned function, passed
as a parameter), and record `predicted_price = predictions.astype(int)`
and `actual_price = df["price"]` per row. -/
def predictPure (model : FeatRow → ℚ) (st : EncState) (rows : List Listing) :
    Except String (EncState × List ScoredRow) :=
  (createFeaturesPure st rows).map (fun p =>
    (p.1, p.2.map (fun fr =>
      { row := fr, predicted := truncInt (model (fillZero fr)),
        actual := fr.derived.base.price })))

/-- The pandas (quick-)sort order on scored rows: ascending by discount
rate. -/
def rowLe (a b : ScoredRow) : Prop := PF.le a.discount b.discount = true

instance : DecidableRel rowLe := fun a b =>
  instDecidableEqBool (PF.le a.discount b.discount) true

instance : IsTotal ScoredRow rowLe := ⟨fun a b => PF_le_total a.discount b.discount⟩

instance : IsTrans ScoredRow rowLe := ⟨fun _ _ _ => PF_le_trans⟩

/-- `sort_values("discount_rate", ascending=False)` at `predictor.py`
line 125.  The call uses the default `kind="quicksort"`, which pandas
documents as NOT stable: the relative order of rows with equal discount
rates is unspecified (numpy's introsort happens to run a stable insertion
sort below its 16-element threshold, but guarantees nothing above it).
This embedding instantiates the sort with one concrete refinement of that
unspecified behaviour — pandas's descending path (reverse the frame,
ascending argsort, reverse the indexer) over a stable ascending insertion
sort.  Every fact proved about it in this file (membership, being a
permutation of the filtered rows) holds for every refinement of the
unspecified tie order; no theorem here relies on the tie order itself. -/
def pandasSortDesc (l : List ScoredRow) : List ScoredRow :=
  (List.insertionSort rowLe l.reverse).reverse

/-- Filter and sort of `find_bargain_properties` (`predictor.py`
lines 116-127) applied to `predict`'s scored output: keep rows with
`discount_rate >= min_discount_rate`, then sort by discount rate
descending. -/
def bargainSort (scored : List ScoredRow) (minRate : ℚ) : List ScoredRow :=
  pandasSortDesc (scored.filter (fun r => PF.ge r.discount (PF.val minRate)))

/-- `PricePredictor.find_bargain_properties` (`predictor.py`
lines 103-127): run `predict`, then filter and sort. -/
def find_bargain_properties (model : FeatRow → ℚ) (st : EncState)
    (rows : List Listing) (minRate : ℚ) : Except String (List ScoredRow) :=
  (predictPure model st rows).map (fun p => bargainSort p.2 minRate)

/-- Mean of a pandas numeric column (over its present values). -/
def qMean (xs : List ℚ) : ℚ := xs.sum / xs.length

/-- `df[column].std()` squared: pandas `Series.std` uses `ddof=1`, the
sample variance with divisor `n - 1`. -/
def sampleVar (xs : List ℚ) : ℚ :=
  (xs.map (fun x => (x - qMean xs) ^ 2)).sum / ((xs.length : ℚ) - 1)

/-- `remove_outliers(df, column, n_std)` (`feature_engineering.py`
lines 255-273) viewed on the filtered column: keep the values `p` with
`mean - n_std * std <= p <= mean + n_std * std`.  Because the interval is
symmetric around the mean and `n_std ≥ 0`, that pair of comparisons is
exactly `(p - mean)² ≤ n_std² * std²`, which is the decidable rational
form used here (`outlier_bound_iff` below proves the equivalence against
the literal square-root bounds).  With fewer than two values the sample
std is NaN (`0/0`), both comparisons are false, and every row is
dropped. -/
def remove_outliers (xs : List ℚ) (n_std : ℚ) : List ℚ :=
  if xs.length < 2 then []
  else xs.filter (fun p => decide ((p - qMean xs) ^ 2 ≤ n_std ^ 2 * sampleVar xs))

/-- Modelled from the spec: the variant of `remove_outliers` the spec
describes, with the population standard deviation (divisor `n`) over the
price column instead of the pandas sample standard deviation. -/
def popVar (xs : List ℚ) : ℚ :=
  (xs.map (fun x => (x - qMean xs) ^ 2)).sum / (xs.length : ℚ)

/-- Modelled from the spec: `remove_outliers` with population std. -/
def remove_outliers_population (xs : List ℚ) (n_std : ℚ) : List ℚ :=
  if xs.length = 0 then []
  else xs.filter (fun p => decide ((p - qMean xs) ^ 2 ≤ n_std ^ 2 * popVar xs))

/-- The outlier-removal step of `ModelTrainer.train`
(`model_trainer.py` lines 46-49): applied to the price column with
`n_std=3.0` when the flag is set. -/
def trainOutlierStep (flag : Bool) (prices : List ℚ) : List ℚ :=
  if flag then remove_outliers prices 3 else prices

/-- `ML_SETTINGS["min_data_count"]` (`config/settings.py` line 44). -/
def min_data_count : ℕ := 100

/-- The minimum-sample guard of `ModelTrainer.train`
(`model_trainer.py` lines 57-61): raise `ValueError` when the number of
effective rows after feature preparation is below the configured
minimum, otherwise proceed. -/
def trainDataCheck (nEffective : ℕ) : Except String Unit :=
  if nEffective < min_data_count then
    Except.error "データ数が不足しています。最低100件必要です。"
  else Except.ok ()

/-- A Python heap object holding one DataFrame: the raw input frame, the
frame returned by `create_features`, or the scored frame returned by
`predict`. -/
inductive DFrame where
  | raw : List Listing → DFrame
  | featured : List FeatRow → DFrame
  | scored : List ScoredRow → DFrame

/-- `FeatureEngineer.create_features` with Python reference semantics
made explicit: the caller passes a reference `i` into a heap of frames;
the first statement `df = df.copy()` (`feature_engineering.py` line 27)
allocates a fresh frame, and every later column assignment mutates only
that fresh frame, which is appended to the heap and whose reference is
returned. -/
def createFeaturesHeap (st : EncState) (h : List DFrame) (i : ℕ) :
    Except String (EncState × List DFrame × ℕ) :=
  match h.getD i (DFrame.raw []) with
  | DFrame.raw rows =>
      (createFeaturesPure st rows).map
        (fun p => (p.1, h ++ [DFrame.featured p.2], h.length))
  | _ => Except.error "create_features expects a raw listings frame"

/-- `PricePredictor.predict` with reference semantics: `predictor.py`
line 51 (`df = properties_df.copy()`) copies the caller's frame before
any mutation; the prediction columns are added to the copy, which is
appended to the heap and returned by reference. -/
def predictHeap (model : FeatRow → ℚ) (st : EncState) (h : List DFrame)
    (i : ℕ) : Except String (EncState × List DFrame × ℕ) :=
  match h.getD i (DFrame.raw []) with
  | DFrame.raw rows =>
      (predictPure model st rows).map
        (fun p => (p.1, h ++ [DFrame.scored p.2], h.length))
  | _ => Except.error "predict expects a raw listings frame"

theorem createFeaturesHeap_shape {st : EncState} {h : List DFrame} {i : ℕ}
    {res : EncState × List DFrame × ℕ}
    (hok : createFeaturesHeap st h i = Except.ok res) :
    (∃ frs, res.2.1 = h ++ [DFrame.featured frs]) ∧ res.2.2 = h.length := by
  unfold createFeaturesHeap at hok
  split at hok
  · rename_i rows _
    rcases hc : createFeaturesPure st rows with e | p <;>
      rw [hc] at hok <;> simp only [Except.map] at hok
    · cases hok
    · rw [Except.ok.injEq] at hok
      subst hok
      exact ⟨⟨p.2, rfl⟩, rfl⟩
  · cases hok

theorem predictHeap_shape {model : FeatRow → ℚ} {st : EncState}
    {h : List DFrame} {i : ℕ} {res : EncState × List DFrame × ℕ}
    (hok : predictHeap model st h i = Except.ok res) :
    (∃ srs, res.2.1 = h ++ [DFrame.scored srs]) ∧ res.2.2 = h.length := by
  unfold predictHeap at hok
  split at hok
  · rename_i rows _
    rcases hc : predictPure model st rows with e | p <;>
      rw [hc] at hok <;> simp only [Except.map] at hok
    · cases hok
    · rw [Except.ok.injEq] at hok
      subst hok
      exact ⟨⟨p.2, rfl⟩, rfl⟩
  · cases hok

/-- C1: for every scored listing, `predict` computes
`discountRate = (predictedPrice - actualPrice) / predictedPrice * 100`
where the predicted price is the model output cast to integer; in
particular predictedPrice 5,000,000 and actualPrice 4,000,000 give a
discount rate of exactly 20. -/
theorem C1_discount_rate_formula :
    (∀ (pred : ℤ) (actual : ℚ), pred ≠ 0 →
        discountRate pred (PF.val actual) =
          PF.val (((pred : ℚ) - actual) / (pred : ℚ) * 100))
    ∧ truncInt 5000000 = 5000000
    ∧ discountRate 5000000 (PF.val 4000000) = PF.val 20 := by
  refine ⟨?_, by norm_num [truncInt], by with_unfolding_all decide⟩
  intro pred actual h
  have hc : (pred : ℚ) ≠ 0 := Int.cast_ne_zero.mpr h
  simp [discountRate, PF.sub, PF.div, PF.mul, hc]

theorem C1_discount_rate_formula_witness :
    (5000000 : ℤ) ≠ 0 ∧
      discountRate 5000000 (PF.val 4000000) =
        PF.val ((((5000000 : ℤ) : ℚ) - 4000000) / ((5000000 : ℤ) : ℚ) * 100) :=
  ⟨by decide, C1_discount_rate_formula.1 5000000 4000000 (by decide)⟩

/-- C5: `train` fails with the insufficient-data error exactly when the
number of effective rows after feature preparation is below
`ML_SETTINGS["min_data_count"] = 100`; 99 rows raise, 100 rows
proceed. -/
theorem C5_min_data_guard :
    (∀ n : ℕ, (∃ e, trainDataCheck n = Except.error e) ↔ n < min_data_count)
    ∧ (∃ e, trainDataCheck 99 = Except.error e)
    ∧ trainDataCheck 100 = Except.ok () := by
  refine ⟨fun n => ⟨fun he => ?_, fun hn => ?_⟩, ⟨_, rfl⟩, rfl⟩
  · by_contra hn
    rcases he with ⟨e, he⟩
    simp [trainDataCheck, hn] at he
  · exact ⟨"データ数が不足しています。最低100件必要です。",
      by simp [trainDataCheck, hn]⟩

/-- C8: `station_distance_category` bands a present station distance with
left-open right-closed intervals: (0,5] is very_close, (5,10] is close,
(10,15] is medium, and above 15 is far. -/
theorem C8_station_distance_banding :
    ∀ d : ℚ,
      (0 < d → d ≤ 5 → stationDistanceCategory d = some "very_close")
      ∧ (5 < d → d ≤ 10 → stationDistanceCategory d = some "close")
      ∧ (10 < d → d ≤ 15 → stationDistanceCategory d = some "medium")
      ∧ (15 < d → stationDistanceCategory d = some "far") := by
  intro d
  refine ⟨fun h1 h2 => ?_, fun h1 h2 => ?_, fun h1 h2 => ?_, fun h1 => ?_⟩ <;>
    simp only [stationDistanceCategory]
  · rw [if_neg (by linarith), if_pos h2]
  · rw [if_neg (by linarith), if_neg (by linarith), if_pos h2]
  · rw [if_neg (by linarith), if_neg (by linarith), if_neg (by linarith), if_pos h2]
  · rw [if_neg (by linarith), if_neg (by linarith), if_neg (by linarith),
      if_neg (by linarith)]

theorem C8_station_distance_banding_witness :
    stationDistanceCategory 5 = some "very_close"
    ∧ stationDistanceCategory (50001 / 10000) = some "close"
    ∧ stationDistanceCategory 16 = some "far" :=
  ⟨(C8_station_distance_banding 5).1 (by norm_num) (by norm_num),
   (C8_station_distance_banding (50001 / 10000)).2.1 (by norm_num) (by norm_num),
   (C8_station_distance_banding 16).2.2.2 (by norm_num)⟩

/-- A listing with a missing `building_age` used to exercise the
inference-time imputation path. -/
def listingA : Listing :=
  { price := some 4000000, building_age := none, floor_area := some 50,
    floor_number := some 2, total_floors := some 5, station_distance := some 7,
    management_fee := some 10000, repair_reserve_fund := some 8000,
    prefecture := some "東京都", city := some "渋谷区", layout := some "2LDK",
    structureType := some "RC", direction := some "南" }

/-- Like `listingA` but with `building_age` present. -/
def listingB : Listing :=
  { listingA with building_age := some 10, price := some 5000000 }

/-- Like `listingA` but with `building_age` present. -/
def listingC : Listing :=
  { listingA with building_age := some 20, price := some 4500000 }

/-- A probe model that reads back the `building_age` feature it is fed,
so the imputed value becomes observable in `predicted_price`. -/
def baModel : FeatRow → ℚ := fun fr => (fr.derived.base.building_age).getD 0

/-- C2 counterexample: the claim says that at inference a missing numeric
field is imputed with zero, not the batch median.  On the batch
(`listingA`, `listingB`, `listingC`) with `building_age` missing, 10, 20,
`predict` feeds the model `building_age = 15` — the batch median imputed
by the shared `create_features` — and not 0. -/
theorem C2_counterexample :
    ∃ st scored,
      predictPure baModel [] [listingA, listingB, listingC] = Except.ok (st, scored)
      ∧ scored.map (fun r => r.predicted) = [15, 10, 20]
      ∧ median [10, 20] = some 15
      ∧ (15 : ℤ) ≠ 0 :=
  ⟨_, _, by with_unfolding_all rfl, by with_unfolding_all rfl,
    by with_unfolding_all rfl, by decide⟩

/-- C2 amended: `predict` runs the same `create_features` transform as
training, so a numeric field missing on a listing is imputed with the
batch median at inference as well; the inference-only `fillna(0)` imputes
zero exactly for the values still missing after that transform, e.g. when
the field is missing on every row of the batch. -/
theorem C2_inference_imputation :
    (∀ (col : List (Option ℚ)) (m : ℚ) (i : ℕ),
        median (col.filterMap id) = some m →
        col.getD i none = none → i < col.length →
        (inferenceImputeColumn col).getD i 0 = m
          ∧ (cleanNumericColumn col).getD i none = some m)
    ∧ (∀ col : List (Option ℚ), (∀ o ∈ col, o = none) →
        inferenceImputeColumn col = List.replicate col.length 0) := by
  constructor
  · intro col m i hmed hmiss hlen
    have hcl : cleanNumericColumn col = col.map (fun o => some (o.getD m)) := by
      unfold cleanNumericColumn
      rw [hmed]
    have hsome : col[i]? = some none := by
      cases h : col[i]? with
      | none =>
          have := List.getElem?_eq_none_iff.mp h
          omega
      | some v =>
          have hv : col.getD i none = v := by
            rw [List.getD_eq_getElem?_getD, h]
            rfl
          rw [hmiss] at hv
          rw [← hv]
    constructor
    · unfold inferenceImputeColumn
      rw [hcl, List.getD_eq_getElem?_getD, List.getElem?_map, List.getElem?_map,
        hsome]
      rfl
    · rw [hcl, List.getD_eq_getElem?_getD, List.getElem?_map, hsome]
      rfl
  · intro col hall
    have h0 : col.filterMap id = [] := by
      rw [List.filterMap_eq_nil_iff]
      intro a ha
      exact hall a ha
    have hmed : median (col.filterMap id) = none := by
      rw [h0]
      rfl
    unfold inferenceImputeColumn cleanNumericColumn
    rw [hmed]
    refine List.eq_replicate_iff.mpr ⟨by simp, ?_⟩
    intro b hb
    rcases List.mem_map.mp hb with ⟨o, ho, rfl⟩
    rw [hall o ho]
    rfl

theorem C2_inference_imputation_witness :
    median ([none, some 10, some 20].filterMap (fun o => o)) = some 15
    ∧ [none, some (10 : ℚ), some 20].getD 0 none = none
    ∧ 0 < [none, some (10 : ℚ), some 20].length
    ∧ (inferenceImputeColumn [none, some 10, some 20]).getD 0 0 = 15
    ∧ (cleanNumericColumn [none, some 10, some 20]).getD 0 none = some 15 :=
  ⟨by with_unfolding_all rfl, rfl, by decide,
    (C2_inference_imputation.1 [none, some 10, some 20] 15 0
      (by with_unfolding_all rfl) rfl (by decide)).1,
    (C2_inference_imputation.1 [none, some 10, some 20] 15 0
      (by with_unfolding_all rfl) rfl (by decide)).2⟩

theorem transformColumn_ok {cls : List String} :
    ∀ {vs : List String} {codes : List ℕ}, transformColumn cls vs = some codes →
      codes = vs.map (fun x => (codeOf cls x).getD 0)
        ∧ ∀ x ∈ vs, (codeOf cls x).isSome := by
  intro vs
  induction vs with
  | nil =>
      intro codes h
      unfold transformColumn at h
      injection h with h
      subst h
      exact ⟨rfl, by simp⟩
  | cons x xs ih =>
      intro codes h
      unfold transformColumn at h
      cases hc : codeOf cls x with
      | none => rw [hc] at h; simp at h
      | some c =>
          rw [hc] at h
          cases ht : transformColumn cls xs with
          | none => rw [ht] at h; simp at h
          | some cs =>
              rw [ht] at h
              injection h with h
              subst h
              rcases ih ht with ⟨h1, h2⟩
              refine ⟨?_, ?_⟩
              · rw [List.map_cons, hc, ← h1]
                rfl
              · intro y hy
                rcases List.mem_cons.mp hy with hxy | hxs
                · subst hxy
                  rw [hc]
                  rfl
                · exact h2 y hxs

/-- C3: once a categorical feature's encoder is fitted, every later
encoding call reuses the fitted mapping unchanged — the state is not
mutated, the codes are a pure function of the stored classes (so the same
value always gets the same code) — an unseen value makes the call error
rather than silently extend the mapping, and the first call on an
unfitted column is the one that installs its classes. -/
theorem C3_encoder_stability :
    (∀ (st : EncState) (col : String) (cls : List String) (vs : List String)
        (st' : EncState) (codes : List ℕ),
        List.lookup col st = some cls →
        encodeColumn st col vs = Except.ok (st', codes) →
        st' = st ∧ codes = vs.map (fun x => (codeOf cls x).getD 0))
    ∧ (∀ (st : EncState) (col : String) (cls : List String) (vs : List String)
        (x : String),
        List.lookup col st = some cls → x ∈ vs → codeOf cls x = none →
        ∃ e, encodeColumn st col vs = Except.error e)
    ∧ (∀ (st : EncState) (col : String) (vs : List String) (st' : EncState)
        (codes : List ℕ),
        List.lookup col st = none →
        encodeColumn st col vs = Except.ok (st', codes) →
        List.lookup col st' = some (fitClasses vs)) := by
  refine ⟨?_, ?_, ?_⟩
  · intro st col cls vs st' codes hlk hok
    unfold encodeColumn at hok
    split at hok
    · rename_i heq
      rw [hlk] at heq
      cases heq
    · rename_i cls' heq
      rw [hlk] at heq
      injection heq with heq
      subst heq
      split at hok
      · rename_i cs ht
        rw [Except.ok.injEq] at hok
        have h1 : st = st' := congrArg Prod.fst hok
        have h2 : cs = codes := congrArg Prod.snd hok
        subst h1
        subst h2
        exact ⟨rfl, (transformColumn_ok ht).1⟩
      · cases hok
  · intro st col cls vs x hlk hx hnone
    cases ht : transformColumn cls vs with
    | none =>
        refine ⟨"y contains previously unseen labels: " ++ col, ?_⟩
        unfold encodeColumn
        rw [hlk]
        show (match transformColumn cls vs with
          | some codes => Except.ok (st, codes)
          | none => Except.error ("y contains previously unseen labels: " ++ col)) =
            Except.error ("y contains previously unseen labels: " ++ col)
        rw [ht]
    | some cs =>
        exfalso
        have := (transformColumn_ok ht).2 x hx
        rw [hnone] at this
        cases this
  · intro st col vs st' codes hlk hok
    unfold encodeColumn at hok
    split at hok
    · rename_i heq
      rw [Except.ok.injEq] at hok
      have h1 : ((col, fitClasses vs) :: st : EncState) = st' :=
        congrArg Prod.fst hok
      subst h1
      simp [List.lookup]
    · rename_i cls' heq
      rw [hlk] at heq
      cases heq

/-- The classes fitted on the spec's example batch. -/
def clsTokyo : List String := fitClasses ["東京都", "神奈川県"]

/-- An encoder state in which `prefecture` is already fitted. -/
def stTokyo : EncState := [("prefecture", clsTokyo)]

theorem C3_encoder_stability_witness :
    List.lookup "prefecture" stTokyo = some clsTokyo
    ∧ ∃ st' codes,
        encodeColumn stTokyo "prefecture" ["東京都", "東京都"] = Except.ok (st', codes)
        ∧ st' = stTokyo
        ∧ codes = ["東京都", "東京都"].map (fun x => (codeOf clsTokyo x).getD 0) := by
  have hlk : List.lookup "prefecture" stTokyo = some clsTokyo := by
    with_unfolding_all rfl
  have hok : encodeColumn stTokyo "prefecture" ["東京都", "東京都"]
      = Except.ok (stTokyo, ["東京都", "東京都"].map (fun x => (codeOf clsTokyo x).getD 0)) := by
    with_unfolding_all rfl
  exact ⟨hlk, _, _, hok,
    (C3_encoder_stability.1 _ _ _ _ _ _ hlk hok).1,
    (C3_encoder_stability.1 _ _ _ _ _ _ hlk hok).2⟩

theorem codeOf_getD {cls : List String} {x : String} :
    ∀ {i : ℕ}, codeOf cls x = some i → cls.getD i "" = x := by
  induction cls with
  | nil => intro i h; cases h
  | cons c cs ih =>
      intro i h
      unfold codeOf at h
      by_cases hc : c = x
      · rw [if_pos hc] at h
        injection h with h
        subst h
        exact hc
      · rw [if_neg hc] at h
        cases ho : codeOf cs x with
        | none => rw [ho] at h; cases h
        | some j =>
            rw [ho] at h
            injection h with h
            subst h
            exact ih ho

theorem codeOf_isSome_of_mem {cls : List String} {x : String} (h : x ∈ cls) :
    (codeOf cls x).isSome := by
  induction cls with
  | nil => cases h
  | cons c cs ih =>
      unfold codeOf
      by_cases hc : c = x
      · rw [if_pos hc]
        rfl
      · rw [if_neg hc]
        rcases List.mem_cons.mp h with h' | h'
        · exact absurd h'.symm hc
        · cases ho : codeOf cs x with
          | none =>
              have := ih h'
              rw [ho] at this
              cases this
          | some j => rfl

theorem codeOf_ne_of_ne {cls : List String} {a b : String} (hab : a ≠ b)
    {i j : ℕ} (ha : codeOf cls a = some i) (hb : codeOf cls b = some j) :
    i ≠ j := by
  intro hij
  exact hab (by rw [← codeOf_getD ha, hij, codeOf_getD hb])

theorem mem_fitClasses {vs : List String} {x : String} (h : x ∈ vs) :
    x ∈ fitClasses vs :=
  (List.perm_insertionSort _ _).mem_iff.mpr (List.mem_dedup.mpr h)

/-- The band labels of the three `pd.cut` derived features. -/
def namedBandLabels : List String :=
  ["very_close", "close", "medium", "far", "new", "relatively_new", "old",
   "very_old", "small", "large", "very_large"]

/-- C9: a listing with `station_distance = 0`, `building_age = 0`, or
`floor_area = 0` falls outside every band of the corresponding derived
feature (the lower bound 0 is excluded), the missing band is stringified
to `"nan"` by the encoding step, and a fitted label encoder gives that
`"nan"` value its own integer code, distinct from the code of every named
band present in the fitted batch. -/
theorem C9_zero_outside_all_bands :
    stationDistanceCategory 0 = none
    ∧ ageCategory 0 = none
    ∧ areaCategory 0 = none
    ∧ toStr none = "nan"
    ∧ (∀ (vs : List String) (l : String), l ∈ namedBandLabels →
        "nan" ∈ vs → l ∈ vs →
        ∃ i j, codeOf (fitClasses vs) "nan" = some i
          ∧ codeOf (fitClasses vs) l = some j ∧ i ≠ j) := by
  refine ⟨rfl, rfl, rfl, rfl, ?_⟩
  intro vs l hl hnan hlv
  have hne : "nan" ≠ l := by
    intro he
    rw [← he] at hl
    revert hl
    decide
  obtain ⟨i, hi⟩ := Option.isSome_iff_exists.mp
    (codeOf_isSome_of_mem (mem_fitClasses hnan))
  obtain ⟨j, hj⟩ := Option.isSome_iff_exists.mp
    (codeOf_isSome_of_mem (mem_fitClasses hlv))
  exact ⟨i, j, hi, hj, codeOf_ne_of_ne hne hi hj⟩

theorem C9_zero_outside_all_bands_witness :
    "very_close" ∈ namedBandLabels
    ∧ "nan" ∈ ["nan", "very_close", "far"]
    ∧ "very_close" ∈ ["nan", "very_close", "far"]
    ∧ ∃ i j, codeOf (fitClasses ["nan", "very_close", "far"]) "nan" = some i
        ∧ codeOf (fitClasses ["nan", "very_close", "far"]) "very_close" = some j
        ∧ i ≠ j :=
  ⟨by decide, by decide, by decide,
    C9_zero_outside_all_bands.2.2.2.2 ["nan", "very_close", "far"] "very_close"
      (by decide) (by decide) (by decide)⟩

theorem discountRate_zero_pred (a : ℚ) (ha : 0 ≤ a) :
    discountRate 0 (PF.val a) = PF.nan ∨ discountRate 0 (PF.val a) = PF.ninf := by
  rcases eq_or_lt_of_le ha with h | h
  · left
    rw [← h]
    with_unfolding_all decide
  · right
    have hdiv : PF.div (PF.val (0 - a)) (PF.val 0) = PF.ninf := by
      simp only [PF.div]
      rw [if_true, if_neg (show ¬(0 - a = 0) by intro hh; linarith),
        if_neg (show ¬(0 < 0 - a) by intro hh; linarith)]
    unfold discountRate
    rw [Int.cast_zero]
    show PF.mul (PF.div (PF.sub (PF.val 0) (PF.val a)) (PF.val 0)) (PF.val 100)
      = PF.ninf
    have hsub : PF.sub (PF.val 0) (PF.val a) = PF.val (0 - a) := rfl
    rw [hsub, hdiv]
    simp only [PF.mul]
    rw [if_neg (by norm_num), if_pos (by norm_num)]

theorem discountRate_zero_pred_ge (a : ℚ) (ha : 0 ≤ a) (t : ℚ) :
    PF.ge (discountRate 0 (PF.val a)) (PF.val t) = false := by
  rcases discountRate_zero_pred a ha with h | h <;> rw [h] <;> rfl

theorem mem_bargainSort_ge {r : ScoredRow} {scored : List ScoredRow}
    {minRate : ℚ} (h : r ∈ bargainSort scored minRate) :
    PF.ge r.discount (PF.val minRate) = true := by
  unfold bargainSort pandasSortDesc at h
  rw [List.mem_reverse] at h
  have h2 := (List.perm_insertionSort rowLe _).mem_iff.mp h
  rw [List.mem_reverse] at h2
  exact (List.mem_filter.mp h2).2

/-- C7 amended: a zero predicted price makes the pandas division produce
NaN (when the actual price is zero too) or a signed infinity — the value
is propagated in `predict`'s `discount_rate` column, not trapped — but
any such listing with a nonnegative actual price is nevertheless excluded
from `find_bargain_properties`' results, because NaN and `-inf`
comparisons against the threshold are false. -/
theorem C7_zero_predicted_price :
    (∀ a : ℚ, 0 ≤ a →
        discountRate 0 (PF.val a) = PF.nan ∨ discountRate 0 (PF.val a) = PF.ninf)
    ∧ (∀ a t : ℚ, 0 ≤ a → PF.ge (discountRate 0 (PF.val a)) (PF.val t) = false)
    ∧ (∀ (scored : List ScoredRow) (minRate : ℚ) (r : ScoredRow),
        r.predicted = 0 → (∃ a, r.actual = some a ∧ 0 ≤ a) →
        r ∉ bargainSort scored minRate) := by
  refine ⟨discountRate_zero_pred, fun a t ha => discountRate_zero_pred_ge a ha t, ?_⟩
  intro scored minRate r hp ⟨a, hac, ha⟩ hmem
  have hge := mem_bargainSort_ge hmem
  have hd : r.discount = discountRate 0 (PF.val a) := by
    unfold ScoredRow.discount
    rw [hp, hac]
    rfl
  rw [hd, discountRate_zero_pred_ge a ha minRate] at hge
  cases hge

/-- A concrete featured row used by witnesses. -/
def exFeat : FeatRow :=
  { derived := deriveFeatures listingA, prefecture_encoded := 0,
    city_encoded := 0, layout_encoded := 0, structureType_encoded := 0,
    direction_encoded := 0, station_distance_category_encoded := 0,
    age_category_encoded := 0, area_category_encoded := 0 }

/-- A scored row with a zero predicted price. -/
def zeroPredRow : ScoredRow := { row := exFeat, predicted := 0, actual := some 4000000 }

theorem C7_zero_predicted_price_witness :
    ((0 : ℚ) ≤ 4000000
      ∧ (discountRate 0 (PF.val 4000000) = PF.nan
        ∨ discountRate 0 (PF.val 4000000) = PF.ninf))
    ∧ zeroPredRow ∉ bargainSort [zeroPredRow] 20 :=
  ⟨⟨by norm_num, C7_zero_predicted_price.1 4000000 (by norm_num)⟩,
    C7_zero_predicted_price.2.2 [zeroPredRow] 20 zeroPredRow rfl
      ⟨4000000, rfl, by norm_num⟩⟩

/-- A model that predicts price 0 for every listing. -/
def zeroModel : FeatRow → ℚ := fun _ => 0

/-- C7 counterexample: the claim says a zero predicted price is never
silently coerced to infinity and never propagated as NaN/Infinity.  But
on `listingA` (actual price 4,000,000) with a model that outputs 0,
`predict` records `discount_rate = -inf` in its output frame. -/
theorem C7_counterexample :
    ∃ st scored, predictPure zeroModel [] [listingA] = Except.ok (st, scored)
      ∧ scored.map ScoredRow.discount = [PF.ninf] :=
  ⟨_, _, by with_unfolding_all rfl, by with_unfolding_all rfl⟩

theorem sampleVar_nonneg {xs : List ℚ} (hn : 2 ≤ xs.length) :
    0 ≤ sampleVar xs := by
  unfold sampleVar
  apply div_nonneg
  · apply List.sum_nonneg
    intro x hx
    rcases List.mem_map.mp hx with ⟨y, _, rfl⟩
    exact sq_nonneg _
  · have h2 : (2 : ℚ) ≤ (xs.length : ℚ) := by exact_mod_cast hn
    linarith

theorem sq_le_nine_iff_abs {x v : ℝ} (hv : 0 ≤ v) :
    x ^ 2 ≤ 9 * v ↔ |x| ≤ 3 * Real.sqrt v := by
  have h9 : Real.sqrt (9 * v) = 3 * Real.sqrt v := by
    rw [show (9 : ℝ) * v = 3 ^ 2 * v by norm_num,
      Real.sqrt_mul (by positivity) v, Real.sqrt_sq (by norm_num : (0:ℝ) ≤ 3)]
  constructor
  · intro h
    have h1 := Real.sqrt_le_sqrt h
    rw [Real.sqrt_sq_eq_abs, h9] at h1
    exact h1
  · intro h
    have h1 : |x| ^ 2 ≤ (3 * Real.sqrt v) ^ 2 :=
      pow_le_pow_left₀ (abs_nonneg x) h 2
    rw [sq_abs] at h1
    calc x ^ 2 ≤ (3 * Real.sqrt v) ^ 2 := h1
    _ = 9 * Real.sqrt v ^ 2 := by ring
    _ = 9 * v := by rw [Real.sq_sqrt hv]

/-- C6 amended: with outlier removal enabled, `train` keeps exactly the
listings whose price `p` satisfies `mean - 3*std <= p <= mean + 3*std`
with inclusive bounds, where `mean` is the batch mean of the price column
and `std` is the pandas **sample** standard deviation (`Series.std`,
`ddof=1`, divisor `n - 1`) — not the population standard deviation. -/
theorem C6_outlier_removal_sample_std :
    ∀ xs : List ℚ, 2 ≤ xs.length → ∀ p : ℚ,
      p ∈ remove_outliers xs 3 ↔
        p ∈ xs ∧
          ((qMean xs : ℝ) - 3 * Real.sqrt (sampleVar xs) ≤ (p : ℝ)
            ∧ (p : ℝ) ≤ (qMean xs : ℝ) + 3 * Real.sqrt (sampleVar xs)) := by
  intro xs hn p
  have hvar : (0 : ℚ) ≤ sampleVar xs := sampleVar_nonneg hn
  have hvarR : (0 : ℝ) ≤ ((sampleVar xs : ℚ) : ℝ) := by exact_mod_cast hvar
  unfold remove_outliers
  rw [if_neg (by omega)]
  simp only [List.mem_filter, decide_eq_true_eq]
  constructor
  · rintro ⟨hmem, hle⟩
    have hR : ((p : ℝ) - ((qMean xs : ℚ) : ℝ)) ^ 2 ≤ 9 * ((sampleVar xs : ℚ) : ℝ) := by
      have hq : ((p - qMean xs) ^ 2 : ℚ) ≤ 9 * sampleVar xs := by linarith
      exact_mod_cast hq
    have habs := (sq_le_nine_iff_abs hvarR).mp hR
    rw [abs_le] at habs
    exact ⟨hmem, by linarith [habs.1], by linarith [habs.2]⟩
  · rintro ⟨hmem, h1, h2⟩
    refine ⟨hmem, ?_⟩
    have habs : |(p : ℝ) - ((qMean xs : ℚ) : ℝ)| ≤ 3 * Real.sqrt (sampleVar xs) := by
      rw [abs_le]
      constructor <;> linarith
    have hR := (sq_le_nine_iff_abs hvarR).mpr habs
    have hq : ((p - qMean xs) ^ 2 : ℚ) ≤ 9 * sampleVar xs := by exact_mod_cast hR
    linarith

theorem C6_outlier_removal_sample_std_witness :
    2 ≤ ([100, 108] : List ℚ).length
    ∧ ((100 : ℚ) ∈ remove_outliers [100, 108] 3 ↔
        (100 : ℚ) ∈ ([100, 108] : List ℚ) ∧
          ((qMean [100, 108] : ℝ) - 3 * Real.sqrt (sampleVar [100, 108]) ≤ ((100 : ℚ) : ℝ)
            ∧ ((100 : ℚ) : ℝ) ≤ (qMean [100, 108] : ℝ) + 3 * Real.sqrt (sampleVar [100, 108]))) :=
  ⟨by decide, C6_outlier_removal_sample_std [100, 108] (by decide) 100⟩

/-- A price batch on which sample-std and population-std outlier removal
disagree: ten prices of 100, ten of 108 and one of 121. -/
def pricesC6 : List ℚ := List.replicate 10 100 ++ List.replicate 10 108 ++ [121]

/-- C6 counterexample: the claim says the bounds use the population
standard deviation of the price column.  On `pricesC6`, 121 lies outside
`mean ± 3·(population std)` — so the claim says it is dropped — yet
`train`'s outlier step (pandas sample std, `ddof=1`) keeps it. -/
theorem C6_counterexample :
    (121 : ℚ) ∈ trainOutlierStep true pricesC6
    ∧ 3 ^ 2 * popVar pricesC6 < ((121 : ℚ) - qMean pricesC6) ^ 2
    ∧ (121 : ℚ) ∉ remove_outliers_population pricesC6 3 :=
  ⟨by with_unfolding_all decide, by with_unfolding_all decide,
    by with_unfolding_all decide⟩

/-- C10: `create_features` and `predict` never mutate the caller's input
frame: both start from `df.copy()`, so in the heap model every
pre-existing slot — in particular the input frame at slot `i` — is
unchanged after the call, and the returned reference is a fresh one. -/
theorem C10_input_frame_unchanged :
    ∀ (st : EncState) (h : List DFrame) (i : ℕ) (model : FeatRow → ℚ),
      (∀ res, createFeaturesHeap st h i = Except.ok res →
        res.2.1.take h.length = h ∧ res.2.2 = h.length)
      ∧ (∀ res, predictHeap model st h i = Except.ok res →
        res.2.1.take h.length = h ∧ res.2.2 = h.length) := by
  intro st h i model
  constructor
  · intro res hok
    rcases createFeaturesHeap_shape hok with ⟨⟨frs, hfr⟩, hidx⟩
    constructor
    · rw [hfr]
      exact List.take_left h [DFrame.featured frs]
    · exact hidx
  · intro res hok
    rcases predictHeap_shape hok with ⟨⟨srs, hsr⟩, hidx⟩
    constructor
    · rw [hsr]
      exact List.take_left h [DFrame.scored srs]
    · exact hidx

theorem C10_input_frame_unchanged_witness :
    ∃ res, createFeaturesHeap [] [DFrame.raw [listingB]] 0 = Except.ok res
      ∧ res.2.1.take 1 = [DFrame.raw [listingB]] ∧ res.2.2 = 1 := by
  have hok : ∃ res, createFeaturesHeap [] [DFrame.raw [listingB]] 0 = Except.ok res :=
    ⟨_, by with_unfolding_all rfl⟩
  rcases hok with ⟨res, hok⟩
  exact ⟨res, hok,
    (C10_input_frame_unchanged [] [DFrame.raw [listingB]] 0 zeroModel).1 res hok⟩
